import Mathlib

/-!
# Verification of the races repository (`racing/db/races.go`)

A shallow embedding of the race repository's query builder, row mapper and
repository façade, with theorems settling the specification's claims.

Modelling conventions:
* Go `error` values are `Option GoError` (`none` = nil error), with
  `GoError := String` carrying the message.
* Go's `*racing.Race` is `Option Race`; a function returning
  `(*racing.Race, error)` returns `Option Race × Option GoError`.
* Instants (`time.Time`) are integers (seconds); `time.Now().After(t)` is
  the strict comparison `now > t`.
* A result row handed to `rows.Scan` is a `ScanResult`: either the cursor
  reported no data (`sql.ErrNoRows`), some other scan error, or the six
  scanned column values.
* The heterogeneous `[]interface{}` argument list is `List SqlArg`.
-/

abbrev GoError := String

/-- One positional SQL parameter value (Go `interface{}`). -/
inductive SqlArg : Type where
  | intArg (i : Int) : SqlArg
  | boolArg (b : Bool) : SqlArg
  | strArg (s : String) : SqlArg
deriving Repr, DecidableEq

/-- `racing.ListRacesRequestFilter`: optional meeting-id set and optional
visibility flag. -/
structure ListRacesRequestFilter : Type where
  meetingIds : List Int
  visible : Option Bool
deriving Repr, DecidableEq

/-- `racing.ListRacesRequestOrder`: order-by column name and direction. -/
structure ListRacesRequestOrder : Type where
  orderBy : String
  orderType : String
deriving Repr, DecidableEq

/-- `racing.Race`: the output entity produced by the row mapper. -/
structure Race : Type where
  id : String
  meetingId : String
  name : String
  number : Int
  visible : Bool
  advertisedStartTime : Int
  status : String
deriving Repr, DecidableEq

/-- Outcome of `rows.Scan` for one cursor position: the cursor reported no
data (`sql.ErrNoRows`), a genuine scan failure, or six column values. -/
inductive ScanResult : Type where
  | noRows : ScanResult
  | scanErr (e : GoError) : ScanResult
  | ok (id meetingId name : String) (number : Int) (visible : Bool)
      (advertisedStart : Int) : ScanResult
deriving Repr, DecidableEq

/-- Go `strings.Repeat s n`. -/
def stringsRepeat (s : String) : Nat → String
  | 0 => ""
  | n + 1 => s ++ stringsRepeat s n

/-- Go `strings.Join xs sep`. -/
def stringsJoin (sep : String) : List String → String
  | [] => ""
  | [x] => x
  | x :: y :: rest => x ++ sep ++ stringsJoin sep (y :: rest)

/-- Lower bound of `ptypes.TimestampProto`'s valid range (seconds of
0001-01-01T00:00:00Z). -/
def minValidSeconds : Int := -62135596800

/-- Upper bound (exclusive) of `ptypes.TimestampProto`'s valid range
(seconds of 10000-01-01T00:00:00Z). -/
def maxValidSeconds : Int := 253402300800

/-- `ptypes.TimestampProto`: converts an instant to a protobuf timestamp,
failing when the instant is outside the representable range. -/
def timestampProto (t : Int) : Except GoError Int :=
  if minValidSeconds ≤ t ∧ t < maxValidSeconds then .ok t
  else .error "timestamp out of range"

/-- `getDBRace` (races.go:143-171): scan one row, convert the timestamp,
derive the status by comparing the advertised start to `now`.
`now` is the wall-clock instant sampled by `time.Now()` during the call. -/
def getDBRace (now : Int) (row : ScanResult) : Option Race × Option GoError :=
  match row with
  | .noRows => (none, none)
  | .scanErr e => (none, some e)
  | .ok id meetingId name number visible advertisedStart =>
    match timestampProto advertisedStart with
    | .error e => (none, some e)
    | .ok ts =>
      let status := if now > advertisedStart then "CLOSE" else "OPEN"
      (some { id := id, meetingId := meetingId, name := name,
              number := number, visible := visible,
              advertisedStartTime := ts, status := status }, none)

/-- The loop body of `scanRaces` (races.go:178-187): map each row,
aborting with `(nil, err)` on the first mapping error, otherwise appending
the mapped entity (possibly nil) to the accumulator. -/
def scanRacesLoop (now : Int) (acc : List (Option Race)) :
    List ScanResult → List (Option Race) × Option GoError
  | [] => (acc, none)
  | row :: rest =>
    match getDBRace now row with
    | (_, some e) => ([], some e)
    | (race, none) => scanRacesLoop now (acc ++ [race]) rest

/-- `scanRaces` (races.go:173-189): collect the mapped entities of every
row, or the first mapping error. -/
def scanRaces (now : Int) (rows : List ScanResult) :
    List (Option Race) × Option GoError :=
  scanRacesLoop now [] rows

/-- `applyFilter` (races.go:95-123): build the optional WHERE clause and
positional argument list from a `ListRacesRequestFilter`. -/
def applyFilter (query : String) (filter : Option ListRacesRequestFilter) :
    String × List SqlArg :=
  match filter with
  | none => (query, [])
  | some f =>
    let clauses1 : List String :=
      if f.meetingIds.length > 0 then
        ["meeting_id IN (" ++ stringsRepeat "?," (f.meetingIds.length - 1) ++ "?)"]
      else []
    let args1 : List SqlArg := f.meetingIds.map SqlArg.intArg
    let (clauses2, args2) :=
      match f.visible with
      | some v => (clauses1 ++ ["visible = ?"], args1 ++ [SqlArg.boolArg v])
      | none => (clauses1, args1)
    if clauses2.length ≠ 0 then
      (query ++ " WHERE " ++ stringsJoin " AND " clauses2, args2)
    else (query, args2)

/-- `applyOrder` (races.go:125-141): append the ORDER BY clause.  When the
order input is nil the fixed default on `advertised_start_time` is used;
otherwise the caller's column name is appended when non-empty, followed by
the direction token only when it is exactly `ASC` or `DESC`. -/
def applyOrder (query : String) (order : Option ListRacesRequestOrder) : String :=
  match order with
  | some o =>
    let q1 :=
      if o.orderBy.length ≠ 0 then query ++ " ORDER BY  " ++ o.orderBy ++ " "
      else query
    if o.orderBy.length ≠ 0 ∧ (o.orderType = "ASC" ∨ o.orderType = "DESC") then
      q1 ++ o.orderType
    else q1
  | none => query ++ " ORDER BY advertised_start_time "

/-- The outcome of `r.db.Query`: an execution error, or a row cursor
(the sequence of rows the store returned, in store order). -/
abbrev QueryResult := Except GoError (List ScanResult)

/-- `Get` (races.go:48-74): consume at most the first row of the cursor
(an empty cursor's scan reports no data), and replace a nil entity with
the customised not-found error naming the requested identifier. -/
def Get (now : Int) (queryResult : QueryResult) (Id : String) :
    Option Race × Option GoError :=
  match queryResult with
  | .error e => (none, some e)
  | .ok rows =>
    let (race, err) := getDBRace now (rows.headD ScanResult.noRows)
    if race.isNone then (none, some ("cannot find race id: " ++ Id))
    else (race, err)

/-- `List` (races.go:76-93), after query building: surface an execution
error verbatim, otherwise scan every row.  Named `ListRaces` because
`List` is taken in Lean. -/
def ListRaces (now : Int) (queryResult : QueryResult) :
    List (Option Race) × Option GoError :=
  match queryResult with
  | .error e => ([], some e)
  | .ok rows => scanRaces now rows

/-- The repository's one-time-initialisation state: whether the
`sync.Once` cell has fired. -/
structure RacesRepoState : Type where
  seedDone : Bool
deriving Repr, DecidableEq

/-- `Init` (races.go:37-46): `err` is a fresh local of each call; the
`sync.Once` body assigns it only on the call that actually runs `seed`,
so every later call returns the zero value `nil`.  `seedErr` is the fixed
outcome `r.seed()` would produce. -/
def Init (seedErr : Option GoError) (s : RacesRepoState) :
    Option GoError × RacesRepoState :=
  if s.seedDone then (none, s)
  else (seedErr, { seedDone := true })

/-- The results of `n` sequential `Init` calls starting from state `s`. -/
def initCalls (seedErr : Option GoError) :
    Nat → RacesRepoState → List (Option GoError) × RacesRepoState
  | 0, s => ([], s)
  | n + 1, s =>
    let (r, s') := Init seedErr s
    let (rs, s'') := initCalls seedErr n s'
    (r :: rs, s'')

/-- The results of `n` sequential `Init` calls in one process lifetime
(fresh state). -/
def initResults (seedErr : Option GoError) (n : Nat) : List (Option GoError) :=
  (initCalls seedErr n { seedDone := false }).1

/-- How many of `n` sequential `Init` calls from state `s` actually run
the seeding body (the `sync.Once` body runs exactly when the cell has not
fired yet). -/
def seedExecCount (seedErr : Option GoError) :
    Nat → RacesRepoState → Nat
  | 0, _ => 0
  | n + 1, s =>
    (if s.seedDone then 0 else 1) +
      seedExecCount seedErr n (Init seedErr s).2

/-! ## Helper lemmas -/

theorem stringsRepeat_count (s : String) (c : Char) :
    ∀ n, (stringsRepeat s n).data.count c = n * s.data.count c
  | 0 => by simp [stringsRepeat]
  | n + 1 => by
    simp [stringsRepeat, String.data_append, List.count_append,
      stringsRepeat_count s c n, Nat.succ_mul, Nat.add_comm]

theorem getDBRace_fst_eq_none (now : Int) (row : ScanResult) (e : GoError)
    (h : (getDBRace now row).2 = some e) : (getDBRace now row).1 = none := by
  cases row with
  | noRows => rfl
  | scanErr e' => rfl
  | ok id meetingId name number visible adv =>
    rcases hts : timestampProto adv with e' | ts <;>
      simp [getDBRace, hts] at h ⊢

theorem scanRacesLoop_ok (now : Int) :
    ∀ (rows : List ScanResult) (acc : List (Option Race)),
      (∀ r ∈ rows, (getDBRace now r).2 = none) →
      scanRacesLoop now acc rows
        = (acc ++ rows.map (fun r => (getDBRace now r).1), none)
  | [], acc, _ => by simp [scanRacesLoop]
  | row :: rest, acc, h => by
    rcases hg : getDBRace now row with ⟨race, err⟩
    have herr : err = none := by
      have := h row (by simp)
      rwa [hg] at this
    subst herr
    have IH := scanRacesLoop_ok now rest (acc ++ [race])
      (fun r hr => h r (by simp [hr]))
    simp only [scanRacesLoop, hg, IH, List.map_cons]
    simp

theorem scanRacesLoop_err (now : Int) (e : GoError) :
    ∀ (pre : List ScanResult) (row : ScanResult) (rest : List ScanResult)
      (acc : List (Option Race)),
      (getDBRace now row).2 = some e →
      (∀ r ∈ pre, (getDBRace now r).2 = none) →
      scanRacesLoop now acc (pre ++ row :: rest) = ([], some e)
  | [], row, rest, acc, hrow, _ => by
    rcases hg : getDBRace now row with ⟨race, err⟩
    rw [hg] at hrow
    simp only at hrow
    subst hrow
    simp only [List.nil_append, scanRacesLoop, hg]
  | p :: pre, row, rest, acc, hrow, hpre => by
    rcases hg : getDBRace now p with ⟨race, err⟩
    have herr : err = none := by
      have := hpre p (by simp)
      rwa [hg] at this
    subst herr
    have IH := scanRacesLoop_err now e pre row rest (acc ++ [race]) hrow
      (fun r hr => hpre r (by simp [hr]))
    simp only [List.cons_append, scanRacesLoop, hg]
    exact IH

theorem scanRacesLoop_no_partial (now : Int) :
    ∀ (rows : List ScanResult) (acc : List (Option Race)),
      (scanRacesLoop now acc rows).2 = none ∨ (scanRacesLoop now acc rows).1 = []
  | [], acc => by simp [scanRacesLoop]
  | row :: rest, acc => by
    rcases hg : getDBRace now row with ⟨race, err⟩
    cases err with
    | some e => right; simp only [scanRacesLoop, hg]
    | none =>
      simp only [scanRacesLoop, hg]
      exact scanRacesLoop_no_partial now rest (acc ++ [race])

theorem initCalls_done (seedErr : Option GoError) :
    ∀ n, initCalls seedErr n { seedDone := true }
      = (List.replicate n none, { seedDone := true })
  | 0 => rfl
  | n + 1 => by
    simp only [initCalls, Init]
    simp [initCalls_done seedErr n, List.replicate_succ]

theorem seedExecCount_done (seedErr : Option GoError) :
    ∀ n, seedExecCount seedErr n { seedDone := true } = 0
  | 0 => rfl
  | n + 1 => by
    simp only [seedExecCount, Init]
    simp [seedExecCount_done seedErr n]

/-! ## Claim theorems -/

/-- C1 counterexample: with advertised start `0` and mapping-time `now = 1`
(so `now` is strictly after the advertised start), the mapped race's status
is the literal `"CLOSE"`, not `"CLOSED"` as the claim states. -/
theorem C1_counterexample :
    (getDBRace 1 (ScanResult.ok "5" "1" "Sydney Cup" 3 true 0)).1.map Race.status
        = some "CLOSE"
    ∧ ("CLOSE" : String) ≠ "CLOSED" ∧ (1 : Int) > 0 := by
  refine ⟨rfl, by decide, by decide⟩

/-- C1 (amended): for every successfully scanned row whose advertised start
is inside the convertible timestamp range, the derived status is the literal
`"CLOSE"` iff `now` is strictly after the advertised start, and the literal
`"OPEN"` otherwise; in particular at `now = adv` the status is `"OPEN"`. -/
theorem C1_status (now adv : Int) (id meetingId name : String) (number : Int)
    (visible : Bool) (h1 : minValidSeconds ≤ adv) (h2 : adv < maxValidSeconds) :
    ((getDBRace now (ScanResult.ok id meetingId name number visible adv)).1.map
        Race.status = some (if now > adv then "CLOSE" else "OPEN"))
    ∧ (((getDBRace now (ScanResult.ok id meetingId name number visible adv)).1.map
        Race.status = some "CLOSE") ↔ now > adv)
    ∧ (now = adv →
        (getDBRace now (ScanResult.ok id meetingId name number visible adv)).1.map
          Race.status = some "OPEN") := by
  have hts : timestampProto adv = .ok adv := by
    simp [timestampProto, h1, h2]
  refine ⟨?_, ?_, ?_⟩
  · simp [getDBRace, hts]
  · by_cases hgt : now > adv <;> simp [getDBRace, hts, hgt]
  · intro heq
    subst heq
    simp [getDBRace, hts]

/-- Witness for `C1_status` at `now = adv = 0`: the hypotheses hold and the
boundary case resolves to `"OPEN"`. -/
theorem C1_status_witness :
    (minValidSeconds ≤ (0 : Int) ∧ (0 : Int) < maxValidSeconds)
    ∧ (getDBRace 0 (ScanResult.ok "5" "1" "Sydney Cup" 3 true 0)).1.map Race.status
        = some "OPEN" :=
  ⟨⟨by decide, by decide⟩,
    (C1_status 0 0 "5" "1" "Sydney Cup" 3 true (by decide) (by decide)).2.2 rfl⟩

/-- C2 counterexample: in `Get`, a row whose field extraction fails with
`"scan failure"` yields a nil entity, so the trailing nil-check replaces the
mapping error with the not-found message — the caller receives a different
error than the MappingError. -/
theorem C2_counterexample :
    Get 0 (Except.ok [ScanResult.scanErr "scan failure"]) "42"
        = (none, some "cannot find race id: 42")
    ∧ (some "cannot find race id: 42" : Option GoError) ≠ some "scan failure" := by
  refine ⟨rfl, by decide⟩

/-- C2 (amended): when a row fails to map, `List` surfaces the
MappingError/ConversionError unchanged, but `Get` replaces it with the
not-found error naming the requested identifier (because the nil-entity
check also fires on mapping failures). -/
theorem C2_errors (now : Int) (Id : String) (pre : List ScanResult)
    (row : ScanResult) (rest : List ScanResult) (e : GoError)
    (hrow : (getDBRace now row).2 = some e)
    (hpre : ∀ r ∈ pre, (getDBRace now r).2 = none) :
    (ListRaces now (.ok (pre ++ row :: rest))).2 = some e
    ∧ Get now (.ok (row :: rest)) Id
        = (none, some ("cannot find race id: " ++ Id)) := by
  constructor
  · show (scanRaces now (pre ++ row :: rest)).2 = some e
    rw [scanRaces, scanRacesLoop_err now e pre row rest [] hrow hpre]
  · have hnone : (getDBRace now row).1 = none := getDBRace_fst_eq_none now row e hrow
    rcases hg : getDBRace now row with ⟨race, err⟩
    rw [hg] at hnone
    simp only at hnone
    subst hnone
    simp only [Get, List.headD_cons, hg, Option.isNone_none, if_true]

/-- Witness for `C2_errors`: a scan failure `"boom"` on the only row. -/
theorem C2_errors_witness :
    ((getDBRace 0 (ScanResult.scanErr "boom")).2 = some "boom")
    ∧ (ListRaces 0 (.ok [ScanResult.scanErr "boom"])).2 = some "boom"
    ∧ Get 0 (.ok [ScanResult.scanErr "boom"]) "42"
        = (none, some "cannot find race id: 42") := by
  have h := C2_errors 0 "42" [] (ScanResult.scanErr "boom") [] "boom" rfl
    (by intro r hr; cases hr)
  exact ⟨rfl, h.1, by rw [h.2]; rfl⟩

/-- C3 counterexample: with a failing seed, the first `Init` call returns
the seed error but the second returns nil — not the same outcome, because
`Init`'s `err` is a fresh local and the `sync.Once` body never runs again. -/
theorem C3_counterexample :
    initResults (some "seed failed") 2 = [some "seed failed", none]
    ∧ (none : Option GoError) ≠ some "seed failed" := by
  refine ⟨rfl, by decide⟩

/-- C3 (amended): across a sequence of `n + 1` sequential `Init` calls the
seeding body executes exactly once, the first call returns the seed outcome,
and every later call returns nil regardless of that outcome. -/
theorem C3_init (seedErr : Option GoError) (n : Nat) :
    initResults seedErr (n + 1) = seedErr :: List.replicate n none
    ∧ seedExecCount seedErr (n + 1) { seedDone := false } = 1
    ∧ seedExecCount seedErr 0 { seedDone := false } = 0 := by
  refine ⟨?_, ?_, rfl⟩
  · simp only [initResults, initCalls, Init]
    simp [initCalls_done seedErr n]
  · simp only [seedExecCount, Init]
    simp [seedExecCount_done seedErr n]

/-- C4 counterexample: an order input that is present but has an empty
column name produces no ORDER BY clause at all — the query does not end
with the default advertised-start-time clause, whatever the direction. -/
theorem C4_counterexample :
    applyOrder "SELECT * FROM races"
        (some { orderBy := "", orderType := "DESCENDING" })
      = "SELECT * FROM races"
    ∧ (" ORDER BY advertised_start_time ".data).isSuffixOf
        ("SELECT * FROM races".data) = false := by
  refine ⟨rfl, by decide⟩

/-- C4 (amended): the fixed default ORDER BY on `advertised_start_time`
is appended only when the order input is absent (nil); when the order
input is present with an empty column name the query is returned
unchanged, regardless of the supplied direction. -/
theorem C4_default_order (q ot : String) :
    applyOrder q none = q ++ " ORDER BY advertised_start_time "
    ∧ applyOrder q (some { orderBy := "", orderType := ot }) = q :=
  ⟨rfl, by simp [applyOrder]⟩

/-- C5 counterexample: with direction `"ASCENDING"` the generated query is
`"Q ORDER BY  name "`, which contains no character `'A'` at all, so the
literal `"ASCENDING"` (which contains `'A'`) was not appended. -/
theorem C5_counterexample :
    applyOrder "Q" (some { orderBy := "name", orderType := "ASCENDING" })
      = "Q ORDER BY  name "
    ∧ ("Q ORDER BY  name ").data.contains 'A' = false
    ∧ ("ASCENDING" : String).data.contains 'A' = true := by
  refine ⟨rfl, by decide, by decide⟩

/-- C5 (amended): for a non-empty column name the direction token is
appended exactly when it is the literal `"ASC"` or `"DESC"`; any other
direction value (including the empty string, `"ASCENDING"` and
`"DESCENDING"`) is dropped. -/
theorem C5_direction (q col ot : String) (h : col.length ≠ 0) :
    applyOrder q (some { orderBy := col, orderType := ot })
      = (q ++ " ORDER BY  " ++ col ++ " ")
        ++ (if ot = "ASC" ∨ ot = "DESC" then ot else "") := by
  by_cases hd : ot = "ASC" ∨ ot = "DESC" <;> simp [applyOrder, h, hd]

/-- Witness for `C5_direction` at column `"name"` and direction `"DESC"`. -/
theorem C5_direction_witness :
    ("name" : String).length ≠ 0
    ∧ applyOrder "Q" (some { orderBy := "name", orderType := "DESC" })
        = "Q ORDER BY  name DESC" := by
  have h := C5_direction "Q" "name" "DESC" (by decide)
  exact ⟨by decide, by rw [h]; rfl⟩

/-- C6 (confirmed): a nil filter, or a filter with an empty
meeting-identifier set and absent visibility flag, leaves the base query
unchanged (no WHERE clause) with an empty argument list. -/
theorem C6_empty_filter (q : String) :
    applyFilter q none = (q, [])
    ∧ applyFilter q (some { meetingIds := [], visible := none }) = (q, []) :=
  ⟨rfl, rfl⟩

/-- C7 (confirmed): for a non-empty meeting-identifier list of length `n`,
the membership clause holds exactly `n` placeholders, the argument list
starts with the `n` identifiers in iteration order, and when the
visibility flag is present its clause follows the membership clause and
its boolean value follows the identifiers. -/
theorem C7_membership (q : String) (ids : List Int) (vis : Option Bool)
    (h : ids ≠ []) :
    ((applyFilter q (some { meetingIds := ids, visible := vis })).1
      = q ++ " WHERE "
          ++ ("meeting_id IN (" ++ stringsRepeat "?," (ids.length - 1) ++ "?)")
          ++ (match vis with | some _ => " AND " ++ "visible = ?" | none => ""))
    ∧ ("meeting_id IN (" ++ stringsRepeat "?," (ids.length - 1) ++ "?)").data.count '?'
        = ids.length
    ∧ (applyFilter q (some { meetingIds := ids, visible := vis })).2
        = ids.map SqlArg.intArg
          ++ (match vis with | some v => [SqlArg.boolArg v] | none => []) := by
  have hpos : 0 < ids.length := List.length_pos.mpr h
  refine ⟨?_, ?_, ?_⟩
  · cases vis with
    | none => simp [applyFilter, hpos, stringsJoin, String.append_assoc]
    | some v => simp [applyFilter, hpos, stringsJoin, String.append_assoc]
  · have hrep := stringsRepeat_count "?," '?' (ids.length - 1)
    have h1 : ("meeting_id IN (" : String).data.count '?' = 0 := by decide
    have h2 : ("?)" : String).data.count '?' = 1 := by decide
    have h3 : ("?," : String).data.count '?' = 1 := by decide
    rw [h3] at hrep
    rw [String.data_append, String.data_append, List.count_append,
      List.count_append, h1, hrep, h2]
    omega
  · cases vis with
    | none => simp [applyFilter, hpos]
    | some v => simp [applyFilter, hpos]

/-- Witness for `C7_membership` with ids `[3, 7]` and visibility `true`. -/
theorem C7_membership_witness :
    ([3, 7] : List Int) ≠ []
    ∧ (applyFilter "Q" (some { meetingIds := [3, 7], visible := some true })).1
        = "Q WHERE meeting_id IN (?,?) AND visible = ?"
    ∧ (applyFilter "Q" (some { meetingIds := [3, 7], visible := some true })).2
        = [SqlArg.intArg 3, SqlArg.intArg 7, SqlArg.boolArg true] := by
  have h := C7_membership "Q" [3, 7] (some true) (by decide)
  refine ⟨by decide, ?_, ?_⟩
  · rw [h.1]; rfl
  · rw [h.2.2]; rfl

/-- C8 (confirmed): when the store query succeeds with zero rows, `Get`
returns no entity together with the not-found error whose message is the
fixed prefix followed by the requested identifier (so the message contains
the identifier). -/
theorem C8_get_notfound (now : Int) (Id : String) :
    Get now (.ok []) Id = (none, some ("cannot find race id: " ++ Id)) := rfl

/-- C9 (confirmed): a successful query with zero rows yields an empty
sequence and no error; when some row fails to map (after rows that map
fine), the result is exactly `(nil, that error)` — the remaining rows are
not processed; and in general the scan never pairs a non-empty partial
sequence with an error. -/
theorem C9_list_results (now : Int) (pre : List ScanResult) (row : ScanResult)
    (rest : List ScanResult) (e : GoError)
    (hrow : (getDBRace now row).2 = some e)
    (hpre : ∀ r ∈ pre, (getDBRace now r).2 = none) :
    ListRaces now (.ok []) = ([], none)
    ∧ ListRaces now (.ok (pre ++ row :: rest)) = ([], some e)
    ∧ ∀ rows : List ScanResult,
        (scanRaces now rows).2 = none ∨ (scanRaces now rows).1 = [] := by
  refine ⟨rfl, ?_, ?_⟩
  · show scanRaces now (pre ++ row :: rest) = ([], some e)
    rw [scanRaces, scanRacesLoop_err now e pre row rest [] hrow hpre]
  · intro rows
    exact scanRacesLoop_no_partial now rows []

/-- Witness for `C9_list_results`: a single row whose scan fails. -/
theorem C9_list_witness :
    ((getDBRace 0 (ScanResult.scanErr "bad")).2 = some "bad")
    ∧ ListRaces 0 (.ok [ScanResult.scanErr "bad"]) = ([], some "bad") := by
  have h := C9_list_results 0 [] (ScanResult.scanErr "bad") [] "bad" rfl
    (by intro r hr; cases hr)
  exact ⟨rfl, h.2.1⟩

/-- C10 (confirmed): the row mapper's no-data sentinel is `(nil, nil)`,
and the scan loop appends whatever entity the mapper produced — so a
sentinel row contributes a nil entry and the scan still succeeds, as the
witness `scanRaces 0 [noRows] = ([none], none)` exhibits. -/
theorem C10_nil_entries (now : Int) (rows : List ScanResult)
    (h : ∀ r ∈ rows, (getDBRace now r).2 = none) :
    getDBRace now ScanResult.noRows = (none, none)
    ∧ scanRaces now rows = (rows.map (fun r => (getDBRace now r).1), none) := by
  refine ⟨rfl, ?_⟩
  rw [scanRaces, scanRacesLoop_ok now rows [] h]
  simp

/-- Witness for `C10_nil_entries`: a scan over one no-data sentinel row
returns the sequence `[nil]` with no error. -/
theorem C10_nil_entries_witness :
    (∀ r ∈ [ScanResult.noRows], (getDBRace 0 r).2 = none)
    ∧ scanRaces 0 [ScanResult.noRows] = ([none], none) := by
  have h := C10_nil_entries 0 [ScanResult.noRows]
    (by intro r hr; simp at hr; subst hr; rfl)
  refine ⟨by intro r hr; simp at hr; subst hr; rfl, ?_⟩
  rw [h.2]; rfl
